import Mathlib

/-!
Verification of the request orchestration core of the pixl-request HTTP
client (src/request.js) against its natural-language specification.

The development shallow-embeds the parts of `request()` that the claims
concern:

* the single-use resolution latch (`callback_fired` / `aborted` flags) that
  guards every completion path (timers, socket errors, end of body,
  download finish, cancellation) — modelled as an explicit event machine;
* the retry recursion of `handleTimeout` / `handleSocketError`;
* the redirect / retry-on-status classification in the response handler;
* the process-wide DNS cache (store at lines 1000-1006, lookup at 518-531);
* header validation (lines 627-637);
* perf finalization `finishPerf` (subtraction/clamp at 1046-1059 and the
  carry-over merge at 1061-1083);
* the FormData header merge (lines 540-555);
* buffer-mode body delivery (lines 900-973).

JavaScript numbers are modelled as rationals where fractional values can
occur (perf timings, epoch seconds) and as naturals/integers elsewhere;
JS truthiness of a number is `(n ~= 0)`, of a string `(s ~= "")`, of an
object field its presence (`Option.isSome`).
-/

namespace PixlRequest

/-! ## The resolution latch event machine (request(), lines 426-1043)

One physical attempt of `request()` holds the mutable flags
`callback_fired`, `aborted`, a reference to the request object (`req`,
whose destruction we track), and the dead man's switch flag
`receivedPacket`.  The racing completion signals are modelled as events;
each event's handler is translated from the corresponding callback in the
source.  The model always has a callback supplied (`callback` is truthy in
every guard), which is the situation the claims describe. -/

/-- Per-attempt configuration, holding the JS truthiness of the option
values that the completion handlers test: `retries` (line 653/700/794),
`idleTimeout` (line 642), and whether a cancellation `signal` was provided
(line 837). -/
structure Cfg where
  retries : Bool
  idle : Bool
  hasSignal : Bool
deriving DecidableEq, Repr

/-- Mutable per-attempt state of `request()`.  `fired` is `callback_fired`
(line 430), `aborted` the flag at line 558, `destroyed` whether
`req.destroy()` / `req.abort()` has been called, `responseSeen` whether the
response callback (line 748) has run, `listenerAttached` whether the abort
listener was registered (line 845), `signalAborted` the external signal's
own aborted flag, `receivedPacket` the idle-timer dead man's switch flag
(line 640), `bodyInstalled` whether the body handlers (lines 849-974) were
registered, and `recursed` whether this attempt re-invoked `request()` for
a retry or redirect. -/
structure RState where
  aborted : Bool
  fired : Bool
  destroyed : Bool
  responseSeen : Bool
  listenerAttached : Bool
  signalAborted : Bool
  receivedPacket : Bool
  bodyInstalled : Bool
  recursed : Bool
deriving DecidableEq, Repr

/-- The state of an attempt when `request()` starts. -/
def initState : RState :=
  { aborted := false, fired := false, destroyed := false, responseSeen := false,
    listenerAttached := false, signalAborted := false, receivedPacket := false,
    bodyInstalled := false, recursed := false }

/-- Terminal outcomes that can be handed to the caller's callback, one per
delivery site in `request()`. -/
inductive Outcome where
  | timeoutFail
  | sockFail
  | ipFail
  | abortedFail
  | bodyData
  | downloadDone
  | decompData
deriving DecidableEq, Repr

/-- The racing completion signals of one attempt.  `respHeaders rd rt`
is the response callback firing, with `rd` the truthiness of
`follow ~A statusCode.match(followMatch) ~A headers.location` (line 760)
and `rt` the truthiness of `statusCode.match(retryMatch)` (line 794). -/
inductive Ev where
  | timeoutFire
  | sockErr
  | ipErr
  | abortSig
  | respHeaders (rd rt : Bool)
  | endBody
  | dlFinish
  | decompDone
  | dataChunk
deriving DecidableEq, Repr

/-- The `aborter` closure (lines 838-844): bail out if already aborted or
resolved, otherwise latch both flags, `req.abort()`, and deliver the
`Request Aborted` failure. -/
def abortStep (s : RState) : RState × Option Outcome :=
  if s.aborted || s.fired then (s, none)
  else ({ s with aborted := true, fired := true, destroyed := true }, some .abortedFail)

/-- One event of the attempt, translated handler by handler from
src/request.js.  `timeoutFire` is `handleTimeout` (641-685), `sockErr` is
`handleSocketError` (687-732), `ipErr` is `handleIPError` (734-744),
`abortSig` is the external signal firing (it runs `aborter` only once the
listener is attached at line 845, otherwise it just records the signal's
aborted flag), `respHeaders` is the response callback (748-847; the
`req.destroyed` guard is line 751, and the node transport invokes this
callback at most once, hence the `responseSeen` guard), and the body
events are the handlers of lines 853-973, which only exist once the
response callback installed them. -/
def step (cfg : Cfg) (s : RState) : Ev → RState × Option Outcome
  | .timeoutFire =>
    if s.receivedPacket && cfg.idle then
      ({ s with receivedPacket := false }, none)
    else if !s.aborted then
      let s1 := { s with aborted := true, destroyed := true }
      if !s1.fired then
        if cfg.retries then ({ s1 with fired := true, recursed := true }, none)
        else ({ s1 with fired := true }, some .timeoutFail)
      else (s1, none)
    else (s, none)
  | .sockErr =>
    if !s.aborted then
      let s1 := { s with aborted := true }
      if !s1.fired then
        if cfg.retries then ({ s1 with fired := true, recursed := true }, none)
        else ({ s1 with fired := true }, some .sockFail)
      else (s1, none)
    else (s, none)
  | .ipErr =>
    if s.aborted then (s, none)
    else
      let s1 := { s with aborted := true, destroyed := true }
      if !s1.fired then ({ s1 with fired := true }, some .ipFail)
      else (s1, none)
  | .abortSig =>
    if s.listenerAttached then abortStep { s with signalAborted := true }
    else ({ s with signalAborted := true }, none)
  | .respHeaders rd rt =>
    if s.destroyed || s.responseSeen then (s, none)
    else
      let s0 := { s with responseSeen := true }
      if rd then ({ s0 with fired := true, recursed := true }, none)
      else if cfg.retries && rt then ({ s0 with fired := true, recursed := true }, none)
      else
        let p :=
          if cfg.hasSignal then
            let sA := { s0 with listenerAttached := true }
            if sA.signalAborted then abortStep sA else (sA, none)
          else (s0, none)
        ({ p.1 with bodyInstalled := true }, p.2)
  | .endBody =>
    if s.bodyInstalled && !s.fired then ({ s with fired := true }, some .bodyData)
    else (s, none)
  | .dlFinish =>
    if s.bodyInstalled && !s.fired then ({ s with fired := true }, some .downloadDone)
    else (s, none)
  | .decompDone =>
    if s.bodyInstalled && !s.fired then ({ s with fired := true }, some .decompData)
    else (s, none)
  | .dataChunk =>
    if s.bodyInstalled then ({ s with receivedPacket := true }, none)
    else (s, none)

/-- Process a list of events from a state, collecting every outcome that
was delivered to the caller's callback. -/
def runEvents (cfg : Cfg) (s : RState) : List Ev → RState × List Outcome
  | [] => (s, [])
  | e :: rest =>
    let p := step cfg s e
    let q := runEvents cfg p.1 rest
    (q.1, p.2.toList ++ q.2)

/-- An event is admissible given whether a request-level socket error has
already occurred: the node http client never emits `response` after the
request errored. -/
def evOk (errSeen : Bool) : Ev → Bool
  | .respHeaders _ _ => !errSeen
  | _ => true

/-- Track whether a socket error has occurred along the trace. -/
def errAfter (errSeen : Bool) : Ev → Bool
  | .sockErr => true
  | _ => errSeen

/-- Transport contract on an attempt's event trace: a `respHeaders` event
never follows a `sockErr` event. -/
def transportOkAux : Bool → List Ev → Bool
  | _, [] => true
  | errSeen, e :: rest => evOk errSeen e && transportOkAux (errAfter errSeen e) rest

/-- An event trace respecting the transport contract. -/
def transportOk (evs : List Ev) : Bool := transportOkAux false evs

/-- A logical request: the chain of physical attempts.  Each attempt runs
from a fresh state (a recursive `self.request(...)` call starts over at
line 426 with `callback_fired = false`); the next attempt only exists if
the previous one recursed. -/
def runChain : List (Cfg × List Ev) → Nat
  | [] => 0
  | a :: rest =>
    (runEvents a.1 initState a.2).2.length +
      (if (runEvents a.1 initState a.2).1.recursed then runChain rest else 0)

/-! ### Latch invariant -/

/-- 1 if the latch `callback_fired` is set. -/
def fl (s : RState) : Nat := if s.fired then 1 else 0

/-- 1 if this attempt has recursed into a new attempt. -/
def rc (s : RState) : Nat := if s.recursed then 1 else 0

/-- Attempt-state invariant, relative to whether a socket error has been
seen: a recursion always latched first, the abort listener and the body
handlers only exist once the response callback ran, and (absent a socket
error) a set latch implies the request was destroyed or the response
callback ran. -/
def invB (errSeen : Bool) (s : RState) : Bool :=
  (!s.recursed || s.fired) &&
  (!s.listenerAttached || s.responseSeen) &&
  (!s.bodyInstalled || s.responseSeen) &&
  (errSeen || !s.fired || (s.destroyed || s.responseSeen))

/-! ## Retry budget exhaustion (claim C2)

`handleSocketError` (lines 687-732) and `handleTimeout` (lines 641-685)
share the same retry logic: if the remaining `retries` budget is truthy,
the consumed options are restored, the numeric budget is decremented
(`options.retries = (typeof(retries) == 'number') ? (retries - 1) : retries`,
line 707), and `request()` recurses into a new attempt; otherwise the
error of the current attempt is delivered as the failure. -/

/-- The attempt chain produced by that logic against a transport that
fails every attempt with a retryable error.  `budget` is the remaining
numeric `retries` budget (a JS number is truthy exactly when nonzero),
`i` is the index of the current attempt, and `errs i` the error the
transport produces on attempt `i`.  The result is the total number of
attempts made and the error carried by the delivered Failure. -/
def retryChainAttempts : Nat → Nat → (Nat → String) → Nat × String
  | 0, i, errs => (1, errs i)
  | Nat.succ n, i, errs =>
    ((retryChainAttempts n (i + 1) errs).1 + 1, (retryChainAttempts n (i + 1) errs).2)

/-! ## Response classification (claim C3)

Lines 760 and 794: the response handler first checks
`follow ~A res.statusCode.toString().match(self.followMatch) ~A res.headers.location`
and redirects; only if that did not apply it checks
`retries ~A res.statusCode.toString().match(self.retryMatch)` and retries;
otherwise it proceeds to body handling. -/

/-- A JS option value that may be a boolean or a number (the `follow` and
`retries` options accept both). -/
inductive JsVal where
  | bool (b : Bool)
  | num (n : Int)
deriving DecidableEq, Repr

/-- JS truthiness of such a value: `false` and `0` are falsy. -/
def JsVal.truthy : JsVal → Bool
  | .bool b => b
  | .num n => n != 0

/-- The default redirect status set, `followMatch = /^(301|302|307|308)$/`
(line 53) applied to `statusCode.toString()`. -/
def followMatchStatus (status : Nat) : Bool :=
  status == 301 || status == 302 || status == 307 || status == 308

/-- The default retry status range, `retryMatch = /^5\d\d$/` (line 75)
applied to `statusCode.toString()`: exactly the three-digit codes 500-599
have a decimal representation matching the pattern. -/
def retryMatchStatus (status : Nat) : Bool :=
  500 ≤ status && status ≤ 599

/-- Truthiness of `res.headers['location']` (line 760): the header is
absent, or present with some value; an empty string value is falsy. -/
def locationTruthy : Option String → Bool
  | none => false
  | some s => s != ""

/-- Presence of a Location header, as the claim words it ("a Location
header is present"). -/
def locationPresent : Option String → Bool
  | none => false
  | some _ => true

/-- The three-way decision of the response handler. -/
inductive Classification where
  | redirect
  | retry
  | proceed
deriving DecidableEq, Repr

/-- The classification performed at lines 760 and 794, with the checks in
source order. -/
def classifyResponse (follow retries : JsVal) (status : Nat) (loc : Option String) :
    Classification :=
  if follow.truthy && followMatchStatus status && locationTruthy loc then .redirect
  else if retries.truthy && retryMatchStatus status then .retry
  else .proceed

/-! ## DNS cache (claim C5)

The cache is the module-global `dns_cache` object (line 27), an object
from hostname to `{ip, expires}`.  Lookup is lines 518-531, the write-
through store is lines 1000-1006. -/

/-- Lookup in a JS object modelled as an association list with unique
keys. -/
def lookupA {α : Type} : List (String × α) → String → Option α
  | [], _ => none
  | c :: rest, k => if c.1 = k then some c.2 else lookupA rest k

/-- `delete obj[k]` on a JS object. -/
def removeA {α : Type} : List (String × α) → String → List (String × α)
  | [], _ => []
  | c :: rest, k => if c.1 = k then removeA rest k else c :: removeA rest k

/-- `obj[k] = v` on a JS object. -/
def setA {α : Type} : List (String × α) → String → α → List (String × α)
  | [], k, v => [(k, v)]
  | c :: rest, k, v => if c.1 = k then (k, v) :: rest else c :: setA rest k v

/-- A DNS cache entry: resolved IP and absolute expiry (epoch seconds,
`now + ttl` at store time). -/
structure DnsEntry where
  ip : String
  expires : ℚ
deriving DecidableEq, Repr

/-- The write-through store at lines 1000-1006: only performed when
`self.dnsTTL` is truthy. -/
def dnsStore (dnsTTL : ℚ) (cache : List (String × DnsEntry)) (host ip : String)
    (now : ℚ) : List (String × DnsEntry) :=
  if dnsTTL != 0 then setA cache host ⟨ip, now + dnsTTL⟩ else cache

/-- The lookup at lines 518-531: skipped entirely unless `this.dnsTTL` is
truthy and the hostname has an entry; a fresh entry (`obj.expires > now`)
is returned, an expired one is deleted and treated as absent. -/
def dnsLookup (dnsTTL : ℚ) (cache : List (String × DnsEntry)) (host : String)
    (now : ℚ) : Option String × List (String × DnsEntry) :=
  if dnsTTL != 0 then
    match lookupA cache host with
    | some obj =>
      if obj.expires > now then (some obj.ip, cache)
      else (none, removeA cache host)
    | none => (none, cache)
  else (none, cache)

/-! ## Header validation (claim C6)

Lines 627-637: before the transport call is constructed (line 748),
every header name is checked with node's `_http_common._checkIsHttpToken`
and every value with `_http_common._checkInvalidHeaderChar`; a violation
returns the error to the callback synchronously. -/

/-- Character class of node's header-name token pattern
(letters, digits, and the sixteen token punctuation characters). -/
def isHttpTokenChar (c : Char) : Bool :=
  c.isAlpha || c.isDigit ||
  c == '^' || c == '_' || c == Char.ofNat 96 || c == '-' || c == '!' || c == '#' ||
  c == '$' || c == '%' || c == '&' || c == Char.ofNat 39 || c == '*' || c == '+' ||
  c == '.' || c == '|' || c == '~'

/-- Node's `_checkIsHttpToken`: a non-empty string of token characters. -/
def checkIsHttpToken (s : String) : Bool :=
  s.length != 0 && s.toList.all isHttpTokenChar

/-- A character allowed in a header value: TAB, printable ASCII 0x20-0x7e,
or 0x80-0xff. -/
def isValidHeaderValueChar (c : Char) : Bool :=
  c == '\t' || (0x20 <= c.toNat && c.toNat <= 0x7e) || (0x80 <= c.toNat && c.toNat <= 0xff)

/-- Node's `_checkInvalidHeaderChar`: true when some character of the
value is outside the allowed class. -/
def checkInvalidHeaderChar (s : String) : Bool :=
  s.toList.any (fun c => !(isValidHeaderValueChar c))

/-- Result of the header validation loop (lines 628-637). -/
inductive HeaderCheck where
  | ok
  | badName (name : String)
  | badValue (name value : String)
deriving DecidableEq, Repr

/-- The validation loop: the first offending header (in object insertion
order) determines the error. -/
def validateHeaders : List (String × String) → HeaderCheck
  | [] => .ok
  | kv :: rest =>
    if !checkIsHttpToken kv.1 then .badName kv.1
    else if checkInvalidHeaderChar kv.2 then .badValue kv.1 kv.2
    else validateHeaders rest

/-- What `request()` has done by the time the transport call would be
opened: either it already returned a validation error to the callback
(lines 630-636, synchronously), or it reached line 748 and opened the
transport call. -/
inductive StartResult where
  | invalidHeader (msg : String)
  | transportOpened
deriving DecidableEq, Repr

/-- The validation stage of `request()`.  The `retries` option is not
consulted on the error path: the retry logic lives only in
`handleTimeout` / `handleSocketError` / the response handler, none of
which exist yet. -/
def requestStart (headers : List (String × String)) (retries : JsVal) : StartResult :=
  match validateHeaders headers with
  | .badName k => .invalidHeader ("Invalid characters in header name: " ++ k)
  | .badValue k v =>
    .invalidHeader ("Invalid characters in header value: " ++ k ++ ": " ++ v)
  | .ok => .transportOpened

/-! ## Timing finalization: subtraction and clamp (claim C7)

`finishPerf`, lines 1046-1059.  A perf phase entry carries a start
timestamp, an end marker and an elapsed duration; the perf map holds the
total phase and the six measured phases. -/

/-- One phase entry of the pixl-perf tracker as used by `finishPerf`. -/
structure PhaseEntry where
  start : ℚ
  endv : ℚ
  elapsed : ℚ
deriving DecidableEq, Repr

/-- The phases of `perf.perf` that `request()` records. -/
structure PerfMap where
  total : Option PhaseEntry
  dns : Option PhaseEntry
  connect : Option PhaseEntry
  send : Option PhaseEntry
  wait : Option PhaseEntry
  receive : Option PhaseEntry
  decompress : Option PhaseEntry
deriving DecidableEq, Repr

/-- `if (p.a ~A p.b) p.a.elapsed -= p.b.elapsed` (lines 1051-1055): the
subtraction happens only when both phases are present. -/
def subPhase : Option PhaseEntry → Option PhaseEntry → Option PhaseEntry
  | some a, some b => some { a with elapsed := a.elapsed - b.elapsed }
  | a, _ => a

/-- `if (p[key].elapsed) p[key].elapsed = Math.max(0, p[key].elapsed)`
(line 1058): a phase with falsy (zero) elapsed is left alone, any other is
clamped to be non-negative. -/
def clampPhase : Option PhaseEntry → Option PhaseEntry
  | none => none
  | some a => if a.elapsed = 0 then some a else some { a with elapsed := max 0 a.elapsed }

/-- Lines 1051-1059 of `finishPerf`: exclusive durations by fixed-order
subtraction (decompress minus receive, receive minus wait, wait minus
send, send minus connect, connect minus dns), then the clamp loop over
every phase. -/
def adjustPerf (p : PerfMap) : PerfMap :=
  let p1 := { p with decompress := subPhase p.decompress p.receive }
  let p2 := { p1 with receive := subPhase p1.receive p1.wait }
  let p3 := { p2 with wait := subPhase p2.wait p2.send }
  let p4 := { p3 with send := subPhase p3.send p3.connect }
  let p5 := { p4 with connect := subPhase p4.connect p4.dns }
  { total := clampPhase p5.total, dns := clampPhase p5.dns,
    connect := clampPhase p5.connect, send := clampPhase p5.send,
    wait := clampPhase p5.wait, receive := clampPhase p5.receive,
    decompress := clampPhase p5.decompress }

/-- A present phase has non-negative elapsed time. -/
def phaseNonneg : Option PhaseEntry → Prop
  | some a => 0 ≤ a.elapsed
  | none => True

/-! ## Timing carry-over merge (claim C8)

Lines 1061-1083 of `finishPerf`: when the attempt is a retry/redirect
continuation, `options.perf` carries the predecessor's finished tracker,
and it is imported into the new tracker. -/

/-- The pixl-perf tracker as `finishPerf` uses it: the phase map, the
counters object, and the tracker's time-unit scale. -/
structure PerfTracker where
  perf : PerfMap
  counters : List (String × ℚ)
  scale : ℚ
deriving DecidableEq, Repr

/-- `perf.count(key, v)`: `counters[key] = (counters[key] || 0) + v`. -/
def countAdd : List (String × ℚ) → String → ℚ → List (String × ℚ)
  | [], k, v => [(k, v)]
  | c :: rest, k, v => if c.1 = k then (c.1, c.2 + v) :: rest else c :: countAdd rest k v

/-- Reading a counter: an absent counter reads as 0. -/
def getCount (cs : List (String × ℚ)) (k : String) : ℚ :=
  (lookupA cs k).getD 0

/-- `if (!perf.perf[key]) perf.perf[key] = {}` (line 1069): a missing
phase entry is created with the defaults the next two lines install
(`end = 1` is applied separately, below). -/
def defaultEntry : Option PhaseEntry → PhaseEntry
  | some e => e
  | none => { start := 0, endv := 0, elapsed := 0 }

/-- The loop body of lines 1069-1073 for a non-total phase key of the old
tracker: default the new entry, force a truthy end marker, and accumulate
the old elapsed scaled by `elapsed / (old_perf.scale / perf.scale)`; the
rational division by zero yields 0, which is what the source's trailing
`|| 0` produces for a degenerate ratio. -/
def mergePhase (pOpt : Option PhaseEntry) (oOpt : Option PhaseEntry)
    (pScale oScale : ℚ) : Option PhaseEntry :=
  match oOpt with
  | none => pOpt
  | some oe =>
    let e := defaultEntry pOpt
    let e1 := if e.endv = 0 then { e with endv := 1 } else e
    some { e1 with elapsed := e1.elapsed + oe.elapsed / (oScale / pScale) }

/-- Lines 1061-1083 of `finishPerf`: the phase block runs only when the
old tracker has a total phase; the new total inherits the old start
(line 1066), every other phase present in the old tracker accumulates its
scaled elapsed (lines 1068-1074), and the counter loop (lines 1078-1082)
adds every old counter via `perf.count`. -/
def mergePerfTracker (p old : PerfTracker) : PerfTracker :=
  let pm :=
    if old.perf.total.isSome then
      { total :=
          match p.perf.total, old.perf.total with
          | some t, some ot => some { t with start := ot.start }
          | t, _ => t,
        dns := mergePhase p.perf.dns old.perf.dns p.scale old.scale,
        connect := mergePhase p.perf.connect old.perf.connect p.scale old.scale,
        send := mergePhase p.perf.send old.perf.send p.scale old.scale,
        wait := mergePhase p.perf.wait old.perf.wait p.scale old.scale,
        receive := mergePhase p.perf.receive old.perf.receive p.scale old.scale,
        decompress := mergePhase p.perf.decompress old.perf.decompress p.scale old.scale }
    else p.perf
  { perf := pm,
    counters := old.counters.foldl (fun acc c => countAdd acc c.1 c.2) p.counters,
    scale := p.scale }

/-- What the claim asserts of one carried-over phase: a phase absent in
the old tracker is untouched, and a present one has its elapsed value
added to the new tracker's (default 0), scaled by the ratio of the two
trackers' time units. -/
def phaseCarried (pf of mf : Option PhaseEntry) (ps os : ℚ) : Prop :=
  (of = none → mf = pf) ∧
  (∀ oe, of = some oe → ∃ e, mf = some e ∧
    e.elapsed = (defaultEntry pf).elapsed + oe.elapsed * (ps / os))

/-- A new tracker and a carried-over tracker with concrete values, for the
witness below. -/
def pTrackerW : PerfTracker :=
  { perf := { total := some ⟨7, 0, 10⟩, dns := none, connect := some ⟨1, 2, 3⟩,
              send := none, wait := none, receive := none, decompress := none },
    counters := [("requests", 1)], scale := 1000 }

/-- The predecessor tracker used by the witness. -/
def oldTrackerW : PerfTracker :=
  { perf := { total := some ⟨100, 0, 50⟩, dns := some ⟨0, 1, 2⟩,
              connect := some ⟨0, 1, 4⟩, send := none, wait := none,
              receive := none, decompress := none },
    counters := [("retries", 2)], scale := 1000 }

/-! ## FormData header merge (claim C9)

Lines 540-555: when the body is a FormData source, its headers (the
multipart boundary Content-Type among them) are written into
`options.headers` with `options.headers[key] = form_headers[key]`
(line 547) — a plain assignment that replaces an existing key. -/

/-- The loop of lines 546-548: each form header is assigned into the
attempt's headers object. -/
def mergeFormHeaders (headers form : List (String × String)) :
    List (String × String) :=
  form.foldl (fun acc kv => setA acc kv.1 kv.2) headers

/-! ## Buffer-mode body delivery (claim C10)

Lines 900-974: with no download sink, data chunks are accumulated; the
`res.on('end')` handler delivers the body. -/

/-- What the buffer-mode end handler does with the accumulated body:
hand the concatenated buffer to a zlib decompress call (lines 928-957),
or deliver a buffer to the callback directly (lines 958-971), where an
empty body is delivered as `Buffer.alloc(0)` (line 970). -/
inductive BodyDelivery where
  | decompress (alg : String) (buf : List Nat)
  | direct (buf : List Nat)
deriving DecidableEq, Repr

/-- The `res.on('end')` handler of buffer mode (lines 912-973).  `chunks`
are the received data chunks as byte lists and `Buffer.concat` is list
concatenation; `matchBr`, `matchGzip` and `matchDeflate` are the
truthiness of the content-encoding header matched against each codec's
word pattern (an absent header makes all three false); `hasBrotli` is the
brotli capability flag.  Only a truthy `total_bytes` reaches the encoding
checks; an empty body short-circuits to `Buffer.alloc(0)`. -/
def bufferModeEnd (chunks : List (List Nat)) (matchBr matchGzip matchDeflate : Bool)
    (autoDecompress hasBrotli : Bool) : BodyDelivery :=
  let total_bytes := (chunks.map List.length).sum
  if total_bytes ≠ 0 then
    let buf := chunks.foldl (fun acc c => acc ++ c) []
    if autoDecompress && matchBr && hasBrotli then .decompress "br" buf
    else if autoDecompress && matchGzip then .decompress "gzip" buf
    else if autoDecompress && matchDeflate then .decompress "deflate" buf
    else .direct buf
  else .direct []

theorem step_main (cfg : Cfg) (s : RState) (e : Ev) (errSeen : Bool)
    (hInv : invB errSeen s = true) (hOk : evOk errSeen e = true) :
    invB (errAfter errSeen e) (step cfg s e).1 = true ∧
    ((step cfg s e).2.toList.length + rc (step cfg s e).1 + fl s ≤
      rc s + fl (step cfg s e).1) ∧
    fl s ≤ fl (step cfg s e).1 ∧ rc s ≤ rc (step cfg s e).1 := by
  obtain ⟨r1, r2, r3⟩ := cfg
  obtain ⟨a, b, c, d, f, g, h, i, j⟩ := s
  cases e <;>
    simp only [step, abortStep, evOk, errAfter, invB, fl, rc] at * <;>
    split_ifs at * <;>
    simp_all

theorem run_main (cfg : Cfg) (evs : List Ev) (errSeen : Bool) (s : RState)
    (hInv : invB errSeen s = true) (hOk : transportOkAux errSeen evs = true) :
    (runEvents cfg s evs).2.length + rc (runEvents cfg s evs).1 + fl s ≤
      rc s + fl (runEvents cfg s evs).1 := by
  induction evs generalizing errSeen s with
  | nil => simp [runEvents]
  | cons e rest ih =>
    simp only [transportOkAux, Bool.and_eq_true] at hOk
    have hstep := step_main cfg s e errSeen hInv hOk.1
    have hrest := ih (errAfter errSeen e) (step cfg s e).1 hstep.1 hOk.2
    simp only [runEvents, List.length_append]
    omega

theorem fl_le_one (s : RState) : fl s ≤ 1 := by
  unfold fl; split <;> omega

theorem step_fired (cfg : Cfg) (s : RState) (e : Ev) (hf : s.fired = true) :
    (step cfg s e).2 = none ∧ (step cfg s e).1.fired = true := by
  obtain ⟨r1, r2, r3⟩ := cfg
  obtain ⟨a, b, c, d, f, g, h, i, j⟩ := s
  simp only at hf
  subst hf
  cases e <;>
    simp only [step, abortStep] <;>
    split_ifs <;>
    simp_all

theorem run_fired (cfg : Cfg) (evs : List Ev) (s : RState) (hf : s.fired = true) :
    (runEvents cfg s evs).2 = [] := by
  induction evs generalizing s with
  | nil => simp [runEvents]
  | cons e rest ih =>
    have hstep := step_fired cfg s e hf
    simp only [runEvents, hstep.1, Option.toList_none, List.nil_append]
    exact ih (step cfg s e).1 hstep.2

/-- Claim C1: for every logical request (any chain of attempts, each with
any trace of racing completion signals respecting the transport contract),
at most one terminal outcome is ever delivered to the caller's callback,
and once the latch is set every further resolution attempt is a silent
no-op (it delivers nothing). -/
theorem single_terminal_delivery :
    (∀ attempts : List (Cfg × List Ev),
      (∀ a ∈ attempts, transportOk a.2 = true) → runChain attempts ≤ 1) ∧
    (∀ (cfg : Cfg) (s : RState) (evs : List Ev),
      s.fired = true → (runEvents cfg s evs).2 = []) := by
  constructor
  · intro attempts hOk
    induction attempts with
    | nil => simp [runChain]
    | cons a rest ih =>
      have hmain := run_main a.1 a.2 false initState (by decide)
        (hOk a (List.mem_cons_self a rest))
      have hfl := fl_le_one (runEvents a.1 initState a.2).1
      have hrest : runChain rest ≤ 1 :=
        ih (fun x hx => hOk x (List.mem_cons_of_mem a hx))
      have h0 : fl initState = 0 := rfl
      have h1 : rc initState = 0 := rfl
      rw [h0, h1] at hmain
      simp only [runChain]
      by_cases hrec : (runEvents a.1 initState a.2).1.recursed = true
      · have h2 : rc (runEvents a.1 initState a.2).1 = 1 := by simp [rc, hrec]
        rw [h2] at hmain
        rw [if_pos hrec]
        omega
      · have h2 : rc (runEvents a.1 initState a.2).1 = 0 := by simp [rc, hrec]
        rw [h2] at hmain
        rw [if_neg hrec]
        omega
  · intro cfg s evs hf
    exact run_fired cfg evs s hf

/-- Witness for C1 at a concrete input: a buffer-mode attempt whose body
completes and whose idle timer then fires delivers exactly once. -/
theorem single_terminal_delivery_witness :
    runChain [(⟨false, true, false⟩, [.respHeaders false false, .endBody, .timeoutFire])] ≤ 1 ∧
    (runEvents ⟨false, true, false⟩
      { initState with fired := true } [.endBody, .timeoutFire]).2 = [] := by
  exact ⟨single_terminal_delivery.1 _ (by decide),
    single_terminal_delivery.2 _ _ _ (by decide)⟩

/-! ## Cancellation (claim C4)

The abort listener is only registered inside the response callback
(line 845), after the redirect and retry checks.  A signal invoked before
response headers arrive therefore has no immediate effect on the request;
its aborted flag is only consulted when (and if) headers arrive
(line 846). -/

/-- Claim C4 counterexample: the cancellation signal is invoked before the
response headers arrive (so before resolution), yet when the first-byte
timer then fires the delivered outcome is the timeout failure, not the
`Request Aborted` failure — the abort neither resolves immediately nor
supersedes the concurrent timeout path, contradicting the claim that
invoking the signal at any point between request start and outcome
delivery resolves a Failure of kind Aborted. -/
theorem abort_before_headers_counterexample :
    (runEvents ⟨false, false, true⟩ initState [Ev.abortSig, Ev.timeoutFire]).2 =
      [Outcome.timeoutFail] ∧ Outcome.timeoutFail ≠ Outcome.abortedFail := by decide

/-- Claim C4 (amended): once the abort listener is attached (which happens
when response headers are received), invoking the cancellation signal
before resolution aborts the in-flight transport call and resolves exactly
one Failure of kind Aborted, and no event can deliver any further outcome;
invoking the signal after resolution delivers nothing and does not throw
(the handler is total).  A signal invoked before the listener is attached
only records its aborted flag, which is consulted when headers arrive. -/
theorem abort_signal_amended (cfg : Cfg) (s : RState)
    (hA : s.listenerAttached = true) (h1 : s.aborted = false) (h2 : s.fired = false) :
    (step cfg s .abortSig).2 = some Outcome.abortedFail ∧
    (step cfg s .abortSig).1.destroyed = true ∧
    (step cfg s .abortSig).1.fired = true ∧
    (∀ evs, (runEvents cfg (step cfg s .abortSig).1 evs).2 = []) ∧
    (∀ t : RState, t.fired = true → (step cfg t .abortSig).2 = none) := by
  have hout : (step cfg s Ev.abortSig).2 = some Outcome.abortedFail := by
    simp [step, hA, abortStep, h1, h2]
  have hdes : (step cfg s Ev.abortSig).1.destroyed = true := by
    simp [step, hA, abortStep, h1, h2]
  have hfi : (step cfg s Ev.abortSig).1.fired = true := by
    simp [step, hA, abortStep, h1, h2]
  refine ⟨hout, hdes, hfi, fun evs => run_fired cfg evs _ hfi, fun t ht => ?_⟩
  by_cases hl : t.listenerAttached = true
  · simp [step, hl, abortStep, ht]
  · simp [step, hl]

/-- Witness for the amended C4 at a concrete state: headers received, the
listener attached, and no prior resolution. -/
theorem abort_signal_amended_witness :
    (step ⟨false, false, true⟩
      { initState with responseSeen := true, listenerAttached := true, bodyInstalled := true }
      .abortSig).2 = some Outcome.abortedFail ∧
    (runEvents ⟨false, false, true⟩
      (step ⟨false, false, true⟩
        { initState with responseSeen := true, listenerAttached := true, bodyInstalled := true }
        .abortSig).1 [Ev.endBody, Ev.timeoutFire]).2 = [] := by
  have h := abort_signal_amended ⟨false, false, true⟩
    { initState with responseSeen := true, listenerAttached := true, bodyInstalled := true }
    rfl rfl rfl
  exact ⟨h.1, h.2.2.2.1 [Ev.endBody, Ev.timeoutFire]⟩

theorem retryChainAttempts_eq (N : Nat) (errs : Nat → String) :
    ∀ i, retryChainAttempts N i errs = (N + 1, errs (i + N)) := by
  induction N with
  | zero => intro i; simp [retryChainAttempts]
  | succ n ih =>
    intro i
    have h := ih (i + 1)
    have h2 : i + 1 + n = i + (n + 1) := by omega
    simp [retryChainAttempts, h, h2]

/-- Claim C2: with retry budget `N` and a transport failing every attempt
with a retryable error, the orchestrator makes exactly `N + 1` attempts
and the delivered outcome is a Failure carrying the error of the last
attempt (attempt `N`, counting from 0), a single error rather than an
aggregate. -/
theorem retry_budget_exhaustion (N : Nat) (errs : Nat → String) :
    (retryChainAttempts N 0 errs).1 = N + 1 ∧
    (retryChainAttempts N 0 errs).2 = errs N := by
  rw [retryChainAttempts_eq N errs 0, Nat.zero_add]
  exact ⟨rfl, rfl⟩

/-- Claim C3 counterexample: with follow budget 5, status 301 and a
Location header that is present but has an empty value, the claim requires
a redirect, but the code proceeds: line 760 tests the truthiness of the
header value, and the empty string is falsy. -/
theorem redirect_empty_location_counterexample :
    classifyResponse (.num 5) (.num 3) 301 (some "") = Classification.proceed ∧
    JsVal.truthy (.num 5) = true ∧ followMatchStatus 301 = true ∧
    locationPresent (some "") = true ∧
    Classification.proceed ≠ Classification.redirect := by decide

/-- Claim C3 (amended): the handler redirects iff follow-remaining is
truthy and the status is in the redirect set and a Location header with a
non-empty value is present; it retries iff redirect did not apply and
retries-remaining is truthy and the status is in the retry range; it
proceeds otherwise — in exactly that priority order. -/
theorem classification_priority (follow retries : JsVal) (status : Nat)
    (loc : Option String) :
    (classifyResponse follow retries status loc = .redirect ↔
      follow.truthy = true ∧ followMatchStatus status = true ∧
        locationTruthy loc = true) ∧
    (classifyResponse follow retries status loc = .retry ↔
      ¬(follow.truthy = true ∧ followMatchStatus status = true ∧
          locationTruthy loc = true) ∧
        retries.truthy = true ∧ retryMatchStatus status = true) ∧
    (classifyResponse follow retries status loc = .proceed ↔
      ¬(follow.truthy = true ∧ followMatchStatus status = true ∧
          locationTruthy loc = true) ∧
        ¬(retries.truthy = true ∧ retryMatchStatus status = true)) := by
  cases hf : follow.truthy <;> cases hm : followMatchStatus status <;>
    cases hl : locationTruthy loc <;> cases hr : retries.truthy <;>
    cases hs : retryMatchStatus status <;>
    simp [classifyResponse, hf, hm, hl, hr, hs]

/-- Claim C5: with TTL 0 every store is a no-op and a lookup never returns
a cached address (and leaves the cache untouched); with positive TTL an
entry whose expiry has passed is treated as absent and deleted lazily by
the lookup. -/
theorem dns_ttl_semantics (cache : List (String × DnsEntry)) (host ip : String)
    (now : ℚ) :
    dnsStore 0 cache host ip now = cache ∧
    dnsLookup 0 cache host now = (none, cache) ∧
    (∀ ttl : ℚ, 0 < ttl → ∀ obj, lookupA cache host = some obj →
      obj.expires ≤ now → dnsLookup ttl cache host now = (none, removeA cache host)) := by
  refine ⟨by simp [dnsStore], by simp [dnsLookup], ?_⟩
  intro ttl httl obj hobj hexp
  have h1 : (ttl != 0) = true := by simp [bne_iff_ne]; exact httl.ne'
  have h2 : ¬(obj.expires > now) := not_lt.mpr hexp
  simp [dnsLookup, h1, hobj, h2]

/-- Witness for C5 at concrete inputs: a TTL-0 store on the empty cache,
and a TTL-300 lookup of an entry that expired at time 5, queried at
time 10. -/
theorem dns_ttl_semantics_witness :
    dnsStore 0 [] "example.com" "10.0.0.1" 10 = [] ∧
    dnsLookup 300 [("example.com", ⟨"10.0.0.1", (5 : ℚ)⟩)] "example.com" 10 =
      (none, removeA [("example.com", ⟨"10.0.0.1", (5 : ℚ)⟩)] "example.com") := by
  refine ⟨(dns_ttl_semantics [] "example.com" "10.0.0.1" 10).1, ?_⟩
  exact (dns_ttl_semantics [("example.com", ⟨"10.0.0.1", (5 : ℚ)⟩)] "example.com"
    "10.0.0.1" 10).2.2 300 (by norm_num) ⟨"10.0.0.1", (5 : ℚ)⟩ (by simp [lookupA])
    (by norm_num)

theorem validateHeaders_ne_ok :
    ∀ (headers : List (String × String)) (kv : String × String), kv ∈ headers →
    (checkIsHttpToken kv.1 = false ∨ checkInvalidHeaderChar kv.2 = true) →
    validateHeaders headers ≠ HeaderCheck.ok := by
  intro headers
  induction headers with
  | nil => intro kv hmem; cases hmem
  | cons a rest ih =>
    intro kv hmem hbad
    rcases List.mem_cons.mp hmem with rfl | hmem2
    · cases h1 : checkIsHttpToken kv.1 with
      | false => simp [validateHeaders, h1]
      | true =>
        cases h2 : checkInvalidHeaderChar kv.2 with
        | true => simp [validateHeaders, h1, h2]
        | false =>
          rcases hbad with hb | hb
          · rw [h1] at hb; simp at hb
          · rw [h2] at hb; simp at hb
    · cases h1 : checkIsHttpToken a.1 with
      | false => simp [validateHeaders, h1]
      | true =>
        cases h2 : checkInvalidHeaderChar a.2 with
        | true => simp [validateHeaders, h1, h2]
        | false =>
          simpa [validateHeaders, h1, h2] using ih kv hmem2 hbad

/-- Claim C6: a merged header set containing a name that is not a
well-formed token, or a value with an invalid character, makes the request
fail synchronously with a validation error before any transport call is
opened, and the result is the same for every retry budget (the failure is
never retried). -/
theorem header_validation_fatal (headers : List (String × String))
    (retries retries2 : JsVal)
    (h : ∃ kv ∈ headers,
      checkIsHttpToken kv.1 = false ∨ checkInvalidHeaderChar kv.2 = true) :
    (∃ msg, requestStart headers retries = .invalidHeader msg) ∧
    requestStart headers retries ≠ .transportOpened ∧
    requestStart headers retries = requestStart headers retries2 := by
  obtain ⟨kv, hmem, hbad⟩ := h
  have hval := validateHeaders_ne_ok headers kv hmem hbad
  refine ⟨?_, ?_, rfl⟩
  · cases hv : validateHeaders headers with
    | ok => exact absurd hv hval
    | badName k =>
      exact ⟨"Invalid characters in header name: " ++ k, by simp [requestStart, hv]⟩
    | badValue k v =>
      exact ⟨"Invalid characters in header value: " ++ k ++ ": " ++ v,
        by simp [requestStart, hv]⟩
  · cases hv : validateHeaders headers with
    | ok => exact absurd hv hval
    | badName k => simp [requestStart, hv]
    | badValue k v => simp [requestStart, hv]

/-- Witness for C6: a header name containing a space is rejected for any
retry budget. -/
theorem header_validation_fatal_witness :
    (∃ msg, requestStart [("X Bad", "v")] (.num 3) = .invalidHeader msg) ∧
    requestStart [("X Bad", "v")] (.num 3) ≠ .transportOpened ∧
    requestStart [("X Bad", "v")] (.num 3) = requestStart [("X Bad", "v")] (.bool true) := by
  exact header_validation_fatal [("X Bad", "v")] (.num 3) (.bool true)
    ⟨("X Bad", "v"), by simp, Or.inl (by decide)⟩

theorem clampPhase_nonneg (o : Option PhaseEntry) : phaseNonneg (clampPhase o) := by
  cases o with
  | none => trivial
  | some a =>
    simp only [clampPhase]
    by_cases h : a.elapsed = 0
    · rw [if_pos h]; show (0 : ℚ) ≤ a.elapsed; rw [h]
    · rw [if_neg h]; exact le_max_left 0 a.elapsed

/-- Claim C7: after the fixed-order subtraction and the clamp loop of
`finishPerf`, every phase present in the returned timing record has a
non-negative elapsed value, for every input record — including records
whose recorded offsets would make the naive subtraction negative. -/
theorem perf_clamp_nonneg (p : PerfMap) :
    phaseNonneg (adjustPerf p).total ∧ phaseNonneg (adjustPerf p).dns ∧
    phaseNonneg (adjustPerf p).connect ∧ phaseNonneg (adjustPerf p).send ∧
    phaseNonneg (adjustPerf p).wait ∧ phaseNonneg (adjustPerf p).receive ∧
    phaseNonneg (adjustPerf p).decompress :=
  ⟨clampPhase_nonneg _, clampPhase_nonneg _, clampPhase_nonneg _, clampPhase_nonneg _,
    clampPhase_nonneg _, clampPhase_nonneg _, clampPhase_nonneg _⟩

theorem mergePhase_some (pOpt : Option PhaseEntry) (oe : PhaseEntry) (ps os : ℚ) :
    ∃ e, mergePhase pOpt (some oe) ps os = some e ∧
      e.elapsed = (defaultEntry pOpt).elapsed + oe.elapsed * (ps / os) := by
  refine ⟨_, rfl, ?_⟩
  show (if (defaultEntry pOpt).endv = 0 then { defaultEntry pOpt with endv := 1 }
      else defaultEntry pOpt).elapsed + oe.elapsed / (os / ps) = _
  have h1 : (if (defaultEntry pOpt).endv = 0 then { defaultEntry pOpt with endv := 1 }
      else defaultEntry pOpt).elapsed = (defaultEntry pOpt).elapsed := by
    split <;> rfl
  rw [h1, div_div_eq_mul_div, mul_div_assoc]

theorem mergePhase_carried (pf of : Option PhaseEntry) (ps os : ℚ) :
    phaseCarried pf of (mergePhase pf of ps os) ps os := by
  constructor
  · intro h; subst h; rfl
  · intro oe h; subst h; exact mergePhase_some pf oe ps os

theorem getCount_nil (k : String) : getCount [] k = 0 := rfl

theorem getCount_cons (c : String × ℚ) (rest : List (String × ℚ)) (k : String) :
    getCount (c :: rest) k = if c.1 = k then c.2 else getCount rest k := by
  by_cases h : c.1 = k <;> simp [getCount, lookupA, h]

theorem getCount_countAdd_self (cs : List (String × ℚ)) (k : String) (v : ℚ) :
    getCount (countAdd cs k v) k = getCount cs k + v := by
  induction cs with
  | nil => simp [countAdd, getCount_cons, getCount_nil]
  | cons c rest ih =>
    by_cases h : c.1 = k
    · simp [countAdd, h, getCount_cons]
    · simp [countAdd, h, getCount_cons, ih]

theorem getCount_countAdd_other (cs : List (String × ℚ)) (k k2 : String) (v : ℚ)
    (hne : k2 ≠ k) :
    getCount (countAdd cs k v) k2 = getCount cs k2 := by
  induction cs with
  | nil => simp [countAdd, getCount_cons, getCount_nil, Ne.symm hne]
  | cons c rest ih =>
    by_cases h : c.1 = k
    · have h2 : ¬(c.1 = k2) := by rw [h]; exact Ne.symm hne
      simp [countAdd, h, getCount_cons, h2, Ne.symm hne]
    · by_cases h3 : c.1 = k2
      · simp [countAdd, h, getCount_cons, h3, hne]
      · simp [countAdd, h, getCount_cons, h3, ih]

theorem getCount_eq_zero_of_not_mem (cs : List (String × ℚ)) (k : String)
    (h : k ∉ cs.map Prod.fst) : getCount cs k = 0 := by
  induction cs with
  | nil => rfl
  | cons c rest ih =>
    simp only [List.map_cons, List.mem_cons, not_or] at h
    have h1 : ¬(c.1 = k) := fun hh => h.1 hh.symm
    rw [getCount_cons, if_neg h1]
    exact ih h.2

theorem mergeCounters_sum :
    ∀ (old : List (String × ℚ)), (old.map Prod.fst).Nodup →
    ∀ (base : List (String × ℚ)) (k : String),
      getCount (old.foldl (fun acc c => countAdd acc c.1 c.2) base) k =
        getCount base k + getCount old k := by
  intro old
  induction old with
  | nil => intro _ base k; simp [getCount_nil]
  | cons c rest ih =>
    intro hnd base k
    have hnd2 : (rest.map Prod.fst).Nodup := (List.nodup_cons.mp hnd).2
    have hc : c.1 ∉ rest.map Prod.fst := (List.nodup_cons.mp hnd).1
    simp only [List.foldl_cons]
    rw [ih hnd2 (countAdd base c.1 c.2) k]
    by_cases hk : k = c.1
    · rw [hk, getCount_countAdd_self, getCount_cons, if_pos rfl]
      have hz : getCount rest c.1 = 0 := getCount_eq_zero_of_not_mem _ _ hc
      rw [hz]
      ring
    · have h3 : ¬(c.1 = k) := fun hh => hk hh.symm
      rw [getCount_countAdd_other _ _ _ _ hk, getCount_cons, if_neg h3]

/-- Claim C8: merging the predecessor's finished tracker into the new one
gives a total phase whose start timestamp is inherited unchanged from the
old tracker, every other phase's elapsed value added scaled by the ratio
of the two trackers' time units, and every counter summed.  The new
tracker has a total phase (set by `perf.begin()` at line 456) and so does
the old one (the guard at line 1063); a real old tracker has a nonzero
scale (pixl-perf uses 1000) and object counters have unique keys. -/
theorem merge_carry_over (p old : PerfTracker) (t ot : PhaseEntry)
    (hp : p.perf.total = some t) (ho : old.perf.total = some ot)
    (hos : old.scale ≠ 0) (hnd : (old.counters.map Prod.fst).Nodup) :
    (mergePerfTracker p old).perf.total = some { t with start := ot.start } ∧
    phaseCarried p.perf.dns old.perf.dns
      (mergePerfTracker p old).perf.dns p.scale old.scale ∧
    phaseCarried p.perf.connect old.perf.connect
      (mergePerfTracker p old).perf.connect p.scale old.scale ∧
    phaseCarried p.perf.send old.perf.send
      (mergePerfTracker p old).perf.send p.scale old.scale ∧
    phaseCarried p.perf.wait old.perf.wait
      (mergePerfTracker p old).perf.wait p.scale old.scale ∧
    phaseCarried p.perf.receive old.perf.receive
      (mergePerfTracker p old).perf.receive p.scale old.scale ∧
    phaseCarried p.perf.decompress old.perf.decompress
      (mergePerfTracker p old).perf.decompress p.scale old.scale ∧
    (∀ k, getCount (mergePerfTracker p old).counters k =
      getCount p.counters k + getCount old.counters k) := by
  have hsome : old.perf.total.isSome = true := by rw [ho]; rfl
  have hperf : (mergePerfTracker p old).perf =
      { total :=
          match p.perf.total, old.perf.total with
          | some t, some ot => some { t with start := ot.start }
          | t, _ => t,
        dns := mergePhase p.perf.dns old.perf.dns p.scale old.scale,
        connect := mergePhase p.perf.connect old.perf.connect p.scale old.scale,
        send := mergePhase p.perf.send old.perf.send p.scale old.scale,
        wait := mergePhase p.perf.wait old.perf.wait p.scale old.scale,
        receive := mergePhase p.perf.receive old.perf.receive p.scale old.scale,
        decompress := mergePhase p.perf.decompress old.perf.decompress
          p.scale old.scale } := by
    simp [mergePerfTracker, hsome]
  refine ⟨?_, ?_, ?_, ?_, ?_, ?_, ?_, ?_⟩
  · rw [hperf]; simp only [hp, ho]
  · rw [hperf]; exact mergePhase_carried _ _ _ _
  · rw [hperf]; exact mergePhase_carried _ _ _ _
  · rw [hperf]; exact mergePhase_carried _ _ _ _
  · rw [hperf]; exact mergePhase_carried _ _ _ _
  · rw [hperf]; exact mergePhase_carried _ _ _ _
  · rw [hperf]; exact mergePhase_carried _ _ _ _
  · intro k
    show getCount (old.counters.foldl (fun acc c => countAdd acc c.1 c.2) p.counters) k = _
    exact mergeCounters_sum old.counters hnd p.counters k

/-- Witness for C8 at the concrete trackers above. -/
theorem merge_carry_over_witness :
    (mergePerfTracker pTrackerW oldTrackerW).perf.total =
      some { start := 100, endv := 0, elapsed := 10 } ∧
    getCount (mergePerfTracker pTrackerW oldTrackerW).counters "retries" =
      getCount pTrackerW.counters "retries" + getCount oldTrackerW.counters "retries" := by
  have h := merge_carry_over pTrackerW oldTrackerW ⟨7, 0, 10⟩ ⟨100, 0, 50⟩ rfl rfl
    (by norm_num [oldTrackerW]) (by simp [oldTrackerW])
  exact ⟨h.1, h.2.2.2.2.2.2.2 "retries"⟩

theorem lookupA_setA_self {α : Type} (hs : List (String × α)) (k : String) (v : α) :
    lookupA (setA hs k v) k = some v := by
  induction hs with
  | nil => simp [setA, lookupA]
  | cons c rest ih =>
    by_cases h : c.1 = k
    · simp [setA, h, lookupA]
    · simp [setA, h, lookupA, ih]

theorem lookupA_setA_other {α : Type} (hs : List (String × α)) (k k2 : String) (v : α)
    (hne : k2 ≠ k) :
    lookupA (setA hs k v) k2 = lookupA hs k2 := by
  induction hs with
  | nil => simp [setA, lookupA, Ne.symm hne]
  | cons c rest ih =>
    by_cases h : c.1 = k
    · have h2 : ¬(c.1 = k2) := by rw [h]; exact Ne.symm hne
      simp [setA, h, lookupA, h2, Ne.symm hne]
    · by_cases h3 : c.1 = k2
      · simp [setA, h, lookupA, h3, hne]
      · simp [setA, h, lookupA, h3, ih]

theorem mergeFormHeaders_not_mem :
    ∀ (form headers : List (String × String)) (k : String),
      k ∉ form.map Prod.fst →
      lookupA (mergeFormHeaders headers form) k = lookupA headers k := by
  intro form
  induction form with
  | nil => intro headers k _; rfl
  | cons c rest ih =>
    intro headers k hk
    simp only [List.map_cons, List.mem_cons, not_or] at hk
    show lookupA (mergeFormHeaders (setA headers c.1 c.2) rest) k = _
    rw [ih (setA headers c.1 c.2) k hk.2]
    exact lookupA_setA_other headers c.1 k c.2 hk.1

theorem mergeFormHeaders_mem :
    ∀ (form headers : List (String × String)) (k : String) (v : String),
      (form.map Prod.fst).Nodup → (k, v) ∈ form →
      lookupA (mergeFormHeaders headers form) k = some v := by
  intro form
  induction form with
  | nil => intro headers k v _ hmem; cases hmem
  | cons c rest ih =>
    intro headers k v hnd hmem
    have hnd2 : (rest.map Prod.fst).Nodup := (List.nodup_cons.mp hnd).2
    have hc : c.1 ∉ rest.map Prod.fst := (List.nodup_cons.mp hnd).1
    rcases List.mem_cons.mp hmem with heq | hmem2
    · obtain ⟨hk, hv⟩ : k = c.1 ∧ v = c.2 := by rw [← heq]; exact ⟨rfl, rfl⟩
      subst hk
      subst hv
      show lookupA (mergeFormHeaders (setA headers c.1 c.2) rest) c.1 = some c.2
      rw [mergeFormHeaders_not_mem rest (setA headers c.1 c.2) c.1 hc]
      exact lookupA_setA_self headers c.1 c.2
    · show lookupA (mergeFormHeaders (setA headers c.1 c.2) rest) k = some v
      exact ih (setA headers c.1 c.2) k v hnd2 hmem2

/-- Claim C9 counterexample: the caller explicitly set a `content-type`
header, and the FormData body source supplies its own `content-type`
(multipart boundary); after the merge of lines 546-548 the caller's value
is gone — the form headers override a header the caller explicitly set,
contradicting the claim that they override nothing the caller set. -/
theorem form_header_override_counterexample :
    lookupA [("content-type", "text/plain")] "content-type" = some "text/plain" ∧
    lookupA (mergeFormHeaders [("content-type", "text/plain")]
        [("content-type", "multipart/form-data; boundary=abc123")]) "content-type" =
      some "multipart/form-data; boundary=abc123" ∧
    some "multipart/form-data; boundary=abc123" ≠ some "text/plain" := by decide

/-- Claim C9 (amended): the headers supplied by the FormData body source
are merged into the attempt's headers; a header name not supplied by the
form is left exactly as the caller set it, while a name the form supplies
takes the form's value, overriding any caller-set header of the same
name. -/
theorem form_header_merge_amended (headers form : List (String × String)) (k : String) :
    (k ∉ form.map Prod.fst →
      lookupA (mergeFormHeaders headers form) k = lookupA headers k) ∧
    (∀ v, (form.map Prod.fst).Nodup → (k, v) ∈ form →
      lookupA (mergeFormHeaders headers form) k = some v) :=
  ⟨fun h => mergeFormHeaders_not_mem form headers k h,
   fun v hnd hmem => mergeFormHeaders_mem form headers k v hnd hmem⟩

/-- Witness for the amended C9: a caller header not named by the form
survives, and the form's multipart content-type wins. -/
theorem form_header_merge_amended_witness :
    lookupA (mergeFormHeaders [("Accept", "text/html")] [("content-type", "multipart/x")])
      "Accept" = lookupA [("Accept", "text/html")] "Accept" ∧
    lookupA (mergeFormHeaders [("Accept", "text/html")] [("content-type", "multipart/x")])
      "content-type" = some "multipart/x" := by
  refine ⟨(form_header_merge_amended [("Accept", "text/html")]
    [("content-type", "multipart/x")] "Accept").1 (by decide), ?_⟩
  exact (form_header_merge_amended [("Accept", "text/html")]
    [("content-type", "multipart/x")] "content-type").2 "multipart/x" (by decide) (by decide)

/-- Claim C10: in buffer mode, a response whose body contains zero bytes
makes the callback receive a zero-length buffer, and the decompression
step is skipped entirely even when a content-encoding header is present
(any combination of codec matches) and auto-decompression is enabled. -/
theorem empty_body_skips_decompression (chunks : List (List Nat))
    (matchBr matchGzip matchDeflate hasBrotli : Bool)
    (h : (chunks.map List.length).sum = 0) :
    bufferModeEnd chunks matchBr matchGzip matchDeflate true hasBrotli = .direct [] ∧
    ∀ alg buf,
      bufferModeEnd chunks matchBr matchGzip matchDeflate true hasBrotli ≠
        .decompress alg buf := by
  have h1 : bufferModeEnd chunks matchBr matchGzip matchDeflate true hasBrotli =
      .direct [] := by
    unfold bufferModeEnd
    simp [h]
  refine ⟨h1, fun alg buf hh => ?_⟩
  rw [h1] at hh
  simp at hh

/-- Witness for C10: two empty chunks, every codec match true, brotli
available. -/
theorem empty_body_skips_decompression_witness :
    bufferModeEnd [[], []] true true true true true = .direct [] ∧
    bufferModeEnd [[], []] true true true true true ≠ .decompress "gzip" [] :=
  ⟨(empty_body_skips_decompression [[], []] true true true true (by decide)).1,
   (empty_body_skips_decompression [[], []] true true true true (by decide)).2 "gzip" []⟩

end PixlRequest
